import Mathlib

/-!
Verification development for the ChatRPG turn-based tactical-combat engine.

The location-graph module (`manage_location` in the data module) is embedded
directly from its TypeScript source.  The combat module
(`src/modules/combat.ts`) is referenced by the repository's tests and
documentation but its implementation file is not present; the combat
definitions below are therefore modelled from the design specification, and
each such definition says so in its doc comment.
-/

namespace ChatRPG

/-! ## Location graph (data module, from source) -/

/-- A location node in the graph, embedded from the data module's
`Location` interface (id, name; the display-only fields are omitted as they
play no role in graph structure). -/
structure Location where
  locId : String
  locName : String
deriving DecidableEq, Repr

/-- An edge between two locations, embedded from the data module's
`LocationEdge` interface (id and the two endpoint location ids; the
display-only fields are omitted). -/
structure LocEdge where
  edgeId : String
  fromLocationId : String
  toLocationId : String
deriving DecidableEq, Repr

/-- The data module's in-memory stores `locationStore` and `edgeStore`.
The TypeScript `Map`s keyed by id are embedded as lists; `Map.get`
becomes `List.find?` on the key field and `Map.delete` becomes a filter
on the key field. -/
structure LocationState where
  locationStore : List Location
  edgeStore : List LocEdge
deriving DecidableEq, Repr

/-- The data module helper `findLocation`: try by id first, then by
case-insensitive name. -/
def findLocation (st : LocationState) (idOrName : String) : Option Location :=
  match st.locationStore.find? (fun l => l.locId == idOrName) with
  | some l => some l
  | none => st.locationStore.find? (fun l => l.locName.toLower == idOrName.toLower)

/-- The data module helper `removeEdgesForLocation`: delete every edge
whose `fromLocationId` or `toLocationId` equals the given location id. -/
def removeEdgesForLocation (es : List LocEdge) (locationId : String) : List LocEdge :=
  es.filter fun e => !(e.fromLocationId == locationId || e.toLocationId == locationId)

/-- Input of the `delete` operation of `manage_location` (both identifying
fields optional, as in `deleteOperationSchema`). -/
structure DeleteInput where
  locationId : Option String
  locName : Option String
deriving Repr

/-- Result of `handleDelete`: either the updated stores together with the
deleted location, or the error box text. -/
inductive DeleteResult where
  | deleted (st : LocationState) (loc : Location)
  | failure (msg : String)
deriving DecidableEq, Repr

/-- The string an optional TypeScript argument contributes to
`input.locationId || input.name || ''` (undefined and the empty string are
both falsy). -/
def strOpt : Option String → String
  | some s => s
  | none => ""

/-- The delete handler `handleDelete`: reject when neither identifier is
given, look the location up, remove its incident edges first, then
remove the location itself. -/
def handleDelete (st : LocationState) (input : DeleteInput) : DeleteResult :=
  if strOpt input.locationId == "" && strOpt input.locName == "" then
    .failure "Either locationId or name is required for delete operation"
  else
    let key := if strOpt input.locationId == "" then strOpt input.locName
               else strOpt input.locationId
    match findLocation st key with
    | none => .failure "Location not found"
    | some loc =>
      .deleted
        { locationStore := st.locationStore.filter (fun l => !(l.locId == loc.locId)),
          edgeStore := removeEdgesForLocation st.edgeStore loc.locId }
        loc

/-- A location id has an entry in the location store. -/
def locIdPresent (st : LocationState) (i : String) : Prop :=
  ∃ l ∈ st.locationStore, l.locId = i

/-- Referential closure of the edge store: every edge endpoint names a
location that exists in the location store. -/
def edgesClosed (st : LocationState) : Prop :=
  ∀ e ∈ st.edgeStore, locIdPresent st e.fromLocationId ∧ locIdPresent st e.toLocationId

/-! ## Combat data model

Shared enums are embedded from `types.ts` (present in the sources); the
encounter record and its operations are modelled from the specification
because `src/modules/combat.ts` is absent from the source tree. -/

/-- Grid position, from the `Position` schema of `types.ts` (the unused `z`
component is omitted). -/
structure Pos where
  x : Int
  y : Int
deriving DecidableEq, Repr

/-- The closed action-kind vocabulary, embedded from `ActionTypeSchema` in
`types.ts`; note that `cast` is a distinct alias token for `cast_spell`. -/
inductive ActionType where
  | attack
  | cast_spell
  | cast
  | dash
  | disengage
  | dodge
  | help
  | hide
  | ready
  | search
  | use_object
  | use_magic_item
  | use_special_ability
  | shove
  | grapple
  | improvise
  | two_weapon_attack
deriving DecidableEq, Repr

/-- Attack resolution outcomes, embedded from `AttackResultSchema` in
`types.ts`. -/
inductive AttackResult where
  | hit
  | miss
  | critical_hit
  | critical_miss
deriving DecidableEq, Repr

/-- Condition vocabulary, embedded from `ConditionSchema` in `types.ts`. -/
inductive ConditionKind where
  | blinded
  | charmed
  | deafened
  | frightened
  | grappled
  | incapacitated
  | invisible
  | paralyzed
  | petrified
  | poisoned
  | prone
  | restrained
  | stunned
  | unconscious
  | exhaustion
deriving DecidableEq, Repr

/-- Modelled from the spec: a Condition Effect of the Condition/Effect
Store (target id, condition kind, rounds remaining where `none` means an
indefinite duration, source label).  `src/modules/combat.ts`, which owns
this record, is absent from the source tree. -/
structure ConditionEffect where
  targetId : String
  kind : ConditionKind
  duration : Option Nat
  source : String := ""
deriving DecidableEq, Repr

/-- Modelled from the spec: an encounter participant (id, display name,
current/maximum HP, armor class, initiative modifier and rolled
initiative, grid position, faction flag, speed, and the transient
per-turn stance flags dashing/disengaged/dodging).  The owning
`src/modules/combat.ts` is absent from the source tree; the field list
follows the spec's Participant data model and the participant shape used
by the repository's tests. -/
structure Participant where
  pid : String
  pname : String
  hp : Int
  maxHp : Int
  ac : Int
  initiativeBonus : Int
  initiative : Int
  position : Pos
  isEnemy : Bool
  speed : Int
  dashing : Bool := false
  disengaged : Bool := false
  dodging : Bool := false
deriving DecidableEq, Repr

/-- Bounded battle grid, from the terrain shape used by the tests
(`terrain: \x7b width, height \x7d`). -/
structure Terrain where
  width : Int
  height : Int
deriving DecidableEq, Repr

/-- Encounter lifecycle state, modelled from the spec (active or ended). -/
inductive EncounterStatus where
  | active
  | ended
deriving DecidableEq, Repr

/-- Modelled from the spec: a live encounter of the Encounter Registry
(participants sorted by initiative descending, current round, the single
current-turn index into the participant list, terrain, lifecycle state,
and the condition effects active on its participants).  The owning
`src/modules/combat.ts` is absent from the source tree.  Having exactly
one `currentTurnIndex` field is the encoding of "exactly one participant
index is current". -/
structure Encounter where
  eid : String
  participants : List Participant
  currentTurnIndex : Nat
  round : Nat
  status : EncounterStatus
  terrain : Terrain
  conditions : List ConditionEffect
deriving DecidableEq, Repr

/-- Error kinds of the engine, modelled from the spec's error-handling
design (`NotFoundError`, `ValidationError`, `ConflictError`,
`RuleViolationError`), each carrying its descriptive message. -/
inductive CombatError where
  | notFound (msg : String)
  | validation (msg : String)
  | conflict (msg : String)
  | ruleViolation (msg : String)
deriving DecidableEq, Repr

/-- The descriptive message carried by an error. -/
def CombatError.message : CombatError → String
  | .notFound m => m
  | .validation m => m
  | .conflict m => m
  | .ruleViolation m => m

/-- A grid cell lies inside the terrain bounds. -/
def inBounds (t : Terrain) (p : Pos) : Bool :=
  0 ≤ p.x && p.x < t.width && 0 ≤ p.y && p.y < t.height

/-- Chebyshev square distance between two cells (one square of reach in
any direction, diagonals included). -/
def chebyshev (a b : Pos) : Nat :=
  max (a.x - b.x).natAbs (a.y - b.y).natAbs

/-- Distance in feet on the 5-ft grid. -/
def distanceFt (a b : Pos) : Nat := 5 * chebyshev a b

/-- Two cells are within one square (5 ft melee reach) of each other. -/
def adjacent (a b : Pos) : Bool := chebyshev a b ≤ 1

/-- Look a participant up by id in an encounter. -/
def findParticipant (e : Encounter) (pid : String) : Option Participant :=
  e.participants.find? (fun p => p.pid == pid)

/-- A condition of the given kind is active on the given target. -/
def hasCondition (cs : List ConditionEffect) (tid : String) (k : ConditionKind) : Bool :=
  cs.any fun c => c.targetId == tid && c.kind == k

/-! ## Combat operations (modelled from the spec) -/

/-- Modelled from the spec: damage application clamps HP to a minimum of 0
("damage/healing that would over/undershoot is truncated, never negative
or over cap"); `src/modules/combat.ts` is absent.  A negative damage
amount deals nothing. -/
def applyDamage (p : Participant) (dmg : Int) : Participant :=
  { p with hp := max 0 (p.hp - max 0 dmg) }

/-- Modelled from the spec: healing application clamps HP to the
effective-max-HP cap; `src/modules/combat.ts` is absent.  A negative
healing amount heals nothing. -/
def applyHealing (p : Participant) (amt : Int) : Participant :=
  { p with hp := min p.maxHp (p.hp + max 0 amt) }

/-- Modelled from the spec: d20 attack-roll resolution against an armor
class.  A natural 20 always hits and is a critical hit, a natural 1
always misses, otherwise the roll plus the attack bonus is compared with
the target's AC.  `src/modules/combat.ts` is absent. -/
def resolveAttackRoll (natRoll : Nat) (bonus : Int) (ac : Int) : AttackResult :=
  if natRoll = 20 then .critical_hit
  else if natRoll = 1 then .critical_miss
  else if ac ≤ (natRoll : Int) + bonus then .hit
  else .miss

/-- An attack result that lands. -/
def AttackResult.isHit : AttackResult → Bool
  | .hit => true
  | .critical_hit => true
  | .miss => false
  | .critical_miss => false

/-- Modelled from the spec: damage of a landed attack — the rolled damage
dice total plus the flat damage bonus, with the dice total doubled on a
critical hit ("doubled damage dice"; the flat bonus is not doubled).
`src/modules/combat.ts` is absent. -/
def attackDamage (diceTotal : Nat) (bonus : Int) : AttackResult → Int
  | .critical_hit => 2 * (diceTotal : Int) + bonus
  | .hit => (diceTotal : Int) + bonus
  | .miss => 0
  | .critical_miss => 0

/-- Modelled from the spec: apply clamped damage to the participant with
the given id and, when its HP reaches 0, trigger the `unconscious`
condition on it (conditions of one kind do not stack).
`src/modules/combat.ts` is absent. -/
def damageTarget (e : Encounter) (tid : String) (dmg : Int) : Encounter :=
  let ps := e.participants.map fun p => if p.pid == tid then applyDamage p dmg else p
  let nowDown := ps.any fun p => p.pid == tid && p.hp == 0
  let cs :=
    if nowDown && !hasCondition e.conditions tid .unconscious then
      { targetId := tid, kind := ConditionKind.unconscious,
        duration := none, source := "dropped to 0 HP" } :: e.conditions
    else e.conditions
  { e with participants := ps, conditions := cs }

/-- Modelled from the spec: Condition Store `add` — conditions of the same
kind on one target do not stack, so adding an already-present kind
leaves the store unchanged.  `src/modules/combat.ts` is absent. -/
def addCondition (e : Encounter) (tid : String) (k : ConditionKind)
    (duration : Option Nat) (source : String := "") : Encounter :=
  if hasCondition e.conditions tid k then e
  else { e with conditions :=
    { targetId := tid, kind := k, duration := duration, source := source } :: e.conditions }

/-- Modelled from the spec: the Turn Scheduler's condition tick — when a
participant's turn ends, the durations of the conditions it owns are
decremented and those that reach zero are removed; indefinite durations
(`none`) are untouched.  `src/modules/combat.ts` is absent. -/
def tickConditions (cs : List ConditionEffect) (owner : String) : List ConditionEffect :=
  cs.foldr
    (fun c acc =>
      if c.targetId == owner then
        match c.duration with
        | some d => if d ≤ 1 then acc else { c with duration := some (d - 1) } :: acc
        | none => c :: acc
      else c :: acc)
    []

/-- Modelled from the spec: clearing the per-turn transient stance flags
when the owner's turn closes.  `src/modules/combat.ts` is absent. -/
def clearTurnFlags (p : Participant) : Participant :=
  { p with dashing := false, disengaged := false, dodging := false }

/-- Modelled from the spec: the Turn Scheduler's `advance` — a reported
error on an ended encounter, otherwise it closes the current
participant's turn (clears its transient flags, ticks its condition
durations), advances the turn index, and increments the round on
wraparound.  `src/modules/combat.ts` is absent; the death-save reminder
and dead-skip policies are out of the modelled scope. -/
def advanceTurn (e : Encounter) : Except CombatError Encounter :=
  match e.status with
  | .ended => .error (.conflict "Encounter has already ended")
  | .active =>
    match e.participants.get? e.currentTurnIndex with
    | none => .error (.validation "Current turn index is out of range")
    | some cur =>
      let ps := e.participants.map fun p => if p.pid == cur.pid then clearTurnFlags p else p
      let cs := tickConditions e.conditions cur.pid
      let n := e.participants.length
      let idx := (e.currentTurnIndex + 1) % n
      let rnd := if e.currentTurnIndex + 1 = n then e.round + 1 else e.round
      .ok { e with participants := ps, conditions := cs,
                   currentTurnIndex := idx, round := rnd }

/-- Modelled from the spec: insertion of a participant at its sorted
position in the initiative-descending order.  `src/modules/combat.ts` is
absent. -/
def insertByInitiative (p : Participant) : List Participant → List Participant
  | [] => [p]
  | q :: rest =>
    if q.initiative < p.initiative then p :: q :: rest
    else q :: insertByInitiative p rest

/-- The participant list is sorted by initiative descending. -/
def SortedByInitiative (l : List Participant) : Prop :=
  l.Sorted (fun a b => b.initiative ≤ a.initiative)

/-- Sort a participant list by initiative descending by repeated sorted
insertion. -/
def sortByInitiative (l : List Participant) : List Participant :=
  l.foldr insertByInitiative []

/-! ## Action pipeline (modelled from the spec) -/

/-- Modelled from the spec: an `execute_action` request, with the
parameter names used by the repository's tests.  Dice results
(`attackRoll` as the natural d20 value, `damageDiceTotal` as the damage
dice total before the flat bonus) are inputs, standing for either the
external dice primitive's output or a manual override.
`src/modules/combat.ts` is absent. -/
structure ActionRequest where
  encounterId : String
  actorId : String
  action : ActionType
  targetId : Option String := none
  attackBonus : Int := 0
  attackRoll : Nat := 10
  damageDiceTotal : Nat := 0
  damageBonus : Int := 0
  moveTo : Option Pos := none
  spellName : Option String := none
deriving Repr

/-- Modelled from the spec: the in-fiction outcome of a successfully
executed action, distinguishing the action family that resolved the
request.  `src/modules/combat.ts` is absent. -/
inductive ActionOutcome where
  | attacked (targetId : String) (result : AttackResult) (damage : Int)
  | dashed
  | disengageSet
  | dodgeSet
  | spellCast (spellName : String) (targetId : Option String)
  | otherAction (label : String)
deriving DecidableEq, Repr

/-- Modelled from the spec: the structured response of a successful
action, carrying the outcome, the movement performed, and the reaction
(opportunity) attacks raised in the same response, attributed by hostile
participant id.  `src/modules/combat.ts` is absent. -/
structure ActionResponse where
  outcome : ActionOutcome
  movedTo : Option Pos := none
  opportunityAttacks : List String := []
deriving DecidableEq, Repr

/-- Apply a pure update to the participant with the given id. -/
def updateParticipant (e : Encounter) (pid : String) (f : Participant → Participant) : Encounter :=
  { e with participants := e.participants.map fun p => if p.pid == pid then f p else p }

/-- Move the participant with the given id to the destination cell. -/
def moveParticipant (e : Encounter) (pid : String) (dest : Pos) : Encounter :=
  updateParticipant e pid fun p => { p with position := dest }

/-- Movement budget in feet for this turn: doubled while dashing. -/
def movementBudget (p : Participant) (actionIsDash : Bool) : Int :=
  if p.dashing || actionIsDash then 2 * p.speed else p.speed

/-- Modelled from the spec: the hostiles whose reaction attack a movement
provokes — every living participant of the opposite faction that is
within one square of the mover's starting cell and outside one square of
the destination cell; a mover that has disengaged this turn provokes
nobody.  `src/modules/combat.ts` is absent. -/
def opportunityAttackers (e : Encounter) (actor : Participant) (dest : Pos) : List String :=
  if actor.disengaged then []
  else
    (e.participants.filter fun h =>
      !(h.pid == actor.pid) && (h.isEnemy != actor.isEnemy) && decide (0 < h.hp) &&
      adjacent actor.position h.position && !adjacent dest h.position).map
      (fun h => h.pid)

/-- Modelled from the spec: structural validation of a declared movement
destination — it must be inside terrain bounds and its path cost must not
exceed the remaining movement budget.  `src/modules/combat.ts` is
absent. -/
def validateMove (e : Encounter) (actor : Participant) (actionIsDash : Bool) :
    Option Pos → Except CombatError (Option Pos)
  | none => .ok none
  | some dest =>
    if !inBounds e.terrain dest then
      .error (.validation "Movement destination is out of terrain bounds")
    else if movementBudget actor actionIsDash < (distanceFt actor.position dest : Int) then
      .error (.ruleViolation "Movement exceeds the remaining movement budget")
    else .ok (some dest)

/-- Modelled from the spec: the attack branch of the Action Pipeline —
validate the target and any declared movement, resolve the attack roll
against the target's AC, then perform the movement (raising opportunity
attacks) and apply the clamped damage on a hit.
`src/modules/combat.ts` is absent. -/
def execAttack (e : Encounter) (req : ActionRequest) (actor : Participant) :
    Except CombatError (Encounter × ActionResponse) :=
  match req.targetId with
  | none => .error (.validation "An attack requires a resolvable target")
  | some tid =>
    match findParticipant e tid with
    | none => .error (.notFound "Target not found in encounter")
    | some target =>
      match validateMove e actor false req.moveTo with
      | .error err => .error err
      | .ok mv =>
        let result := resolveAttackRoll req.attackRoll req.attackBonus target.ac
        let dmg := attackDamage req.damageDiceTotal req.damageBonus result
        let oas := match mv with
          | some dest => opportunityAttackers e actor dest
          | none => []
        let e1 := match mv with
          | some dest => moveParticipant e actor.pid dest
          | none => e
        let e2 := if result.isHit then damageTarget e1 tid dmg else e1
        .ok (e2, { outcome := .attacked tid result dmg,
                   movedTo := mv, opportunityAttacks := oas })

/-- Modelled from the spec: the dash branch — validate the declared
movement against the doubled budget, set the dashing flag, perform the
movement and raise opportunity attacks.  `src/modules/combat.ts` is
absent. -/
def execDash (e : Encounter) (req : ActionRequest) (actor : Participant) :
    Except CombatError (Encounter × ActionResponse) :=
  match validateMove e actor true req.moveTo with
  | .error err => .error err
  | .ok mv =>
    let oas := match mv with
      | some dest => opportunityAttackers e actor dest
      | none => []
    let e1 := updateParticipant e actor.pid fun p => { p with dashing := true }
    let e2 := match mv with
      | some dest => moveParticipant e1 actor.pid dest
      | none => e1
    .ok (e2, { outcome := .dashed, movedTo := mv, opportunityAttacks := oas })

/-- Modelled from the spec: the spellcasting branch, reached only by the
unambiguous `cast_spell` / `cast` action kinds — a spell name is
required; a single-target spell resolves a spell attack roll against the
target and applies clamped damage on a hit.  The caster does not move.
`src/modules/combat.ts` is absent. -/
def execCast (e : Encounter) (req : ActionRequest) : Except CombatError (Encounter × ActionResponse) :=
  match req.spellName with
  | none => .error (.validation "Casting a spell requires a spell name")
  | some sname =>
    match req.targetId with
    | none => .ok (e, { outcome := .spellCast sname none })
    | some tid =>
      match findParticipant e tid with
      | none => .error (.notFound "Target not found in encounter")
      | some target =>
        let result := resolveAttackRoll req.attackRoll req.attackBonus target.ac
        let dmg := attackDamage req.damageDiceTotal req.damageBonus result
        let e2 := if result.isHit then damageTarget e tid dmg else e
        .ok (e2, { outcome := .spellCast sname (some tid) })

/-- Modelled from the spec: the Action Pipeline on one encounter —
validation (encounter active, actor resolvable, action-specific
parameters) happens fully before any mutation, then the action kind is
dispatched over the closed vocabulary.  `src/modules/combat.ts` is
absent. -/
def execOnEncounter (e : Encounter) (req : ActionRequest) :
    Except CombatError (Encounter × ActionResponse) :=
  if e.status = .ended then .error (.conflict "Encounter has already ended")
  else
    match findParticipant e req.actorId with
    | none => .error (.notFound "Actor not found in encounter")
    | some actor =>
      match req.action with
      | .attack => execAttack e req actor
      | .dash => execDash e req actor
      | .disengage =>
        .ok (updateParticipant e actor.pid (fun p => { p with disengaged := true }),
             { outcome := .disengageSet })
      | .dodge =>
        .ok (updateParticipant e actor.pid (fun p => { p with dodging := true }),
             { outcome := .dodgeSet })
      | .cast_spell => execCast e req
      | .cast => execCast e req
      | _ => .ok (e, { outcome := .otherAction "improvised" })

/-- The Encounter Registry's shared map from encounter id to encounter
record, embedded as a list. -/
abbrev Registry := List Encounter

/-- Look an encounter up by id. -/
def findEncounter (reg : Registry) (eid : String) : Option Encounter :=
  reg.find? fun e => e.eid == eid

/-- Write an encounter record back into the registry under its id. -/
def updateEncounter (reg : Registry) (e2 : Encounter) : Registry :=
  reg.map fun e => if e.eid == e2.eid then e2 else e

/-- A write operation's structured result: success with a response, or a
failure with an error kind — never a half-applied mutation. -/
inductive ToolResult where
  | success (resp : ActionResponse)
  | failure (err : CombatError)
deriving DecidableEq, Repr

/-- Commit a pipeline result to the registry: write the mutated
encounter back on success, keep the registry untouched on failure. -/
def applyExec (reg : Registry) (r : Except CombatError (Encounter × ActionResponse)) :
    Registry × ToolResult :=
  match r with
  | .error err => (reg, .failure err)
  | .ok (e2, resp) => (updateEncounter reg e2, .success resp)

/-- Modelled from the spec: the top-level `executeAction` entry point —
load the encounter from the registry, run the pipeline, and write the
mutated encounter back only on success; a failed request leaves the
registry exactly as it was.  `src/modules/combat.ts` is absent. -/
def executeAction (reg : Registry) (req : ActionRequest) : Registry × ToolResult :=
  match findEncounter reg req.encounterId with
  | none => (reg, .failure (.notFound "Encounter not found"))
  | some e => applyExec reg (execOnEncounter e req)

/-- Assign a participant's rolled initiative: 1d20 plus its initiative
modifier. -/
def rollInitiative (p : Participant) (d20 : Nat) : Participant :=
  { p with initiative := (d20 : Int) + p.initiativeBonus }

/-- Modelled from the spec: Encounter Registry `create` — roll initiative
for every participant (the d20 results are supplied by the external dice
primitive, here an input function), sort descending, set round 1 and turn
index 0; `ValidationError` when the terrain bounds are invalid or two
participants share an id.  An empty participant list is also a
`ValidationError`, since the active-encounter invariant requires a
current participant.  `src/modules/combat.ts` is absent. -/
def createEncounter (eid : String) (ps : List Participant)
    (roll : Participant → Nat) (t : Terrain) : Except CombatError Encounter :=
  if ps = [] then .error (.validation "An encounter requires at least one participant")
  else if ¬(0 < t.width ∧ 0 < t.height) then .error (.validation "Terrain bounds are invalid")
  else if ¬(ps.map Participant.pid).Nodup then
    .error (.validation "Two participants share an id")
  else
    .ok { eid := eid,
          participants := sortByInitiative (ps.map fun p => rollInitiative p (roll p)),
          currentTurnIndex := 0, round := 1, status := .active,
          terrain := t, conditions := [] }

/-- Modelled from the spec: the initiative value assigned to an added
participant — the manual value when supplied, otherwise the rolled d20
plus the participant's initiative modifier.  `src/modules/combat.ts` is
absent. -/
def chosenInitiative (p : Participant) (manualInitiative : Option Int) (d20 : Nat) : Int :=
  match manualInitiative with
  | some i => i
  | none => (d20 : Int) + p.initiativeBonus

/-- Modelled from the spec: `addParticipant` on one encounter —
`ConflictError` when the participant id already exists, `ValidationError`
when the starting position is outside terrain bounds; otherwise the
participant, with manual or rolled initiative, is inserted at its sorted
position.  `src/modules/combat.ts` is absent. -/
def addParticipantToEncounter (e : Encounter) (p : Participant)
    (manualInitiative : Option Int) (d20 : Nat) : Except CombatError Encounter :=
  if e.participants.any (fun q => q.pid == p.pid) then
    .error (.conflict "Participant ID already exists in the encounter")
  else if !inBounds e.terrain p.position then
    .error (.validation "Starting position is out of terrain bounds")
  else
    .ok { e with participants :=
            (insertByInitiative { p with initiative := chosenInitiative p manualInitiative d20 }
              e.participants) }

/-- Modelled from the spec: the registry-level `addParticipant` —
`NotFoundError` when the encounter id is unknown, otherwise the
encounter-level insertion written back under the same id.
`src/modules/combat.ts` is absent. -/
def addParticipant (reg : Registry) (eid : String) (p : Participant)
    (manualInitiative : Option Int) (d20 : Nat) : Except CombatError Registry :=
  match findEncounter reg eid with
  | none => .error (.notFound "Encounter not found")
  | some e => (addParticipantToEncounter e p manualInitiative d20).map (updateEncounter reg)

/-! ## Invariants and helper projections -/

/-- The active-encounter turn invariant: while an encounter is active its
single current index is a valid index into the participant list. -/
def currentIndexValid (e : Encounter) : Prop :=
  e.status = .active → e.currentTurnIndex < e.participants.length

/-- Every participant's HP lies in the closed interval from 0 to its
maximum HP. -/
def hpWithinBounds (e : Encounter) : Prop :=
  ∀ p ∈ e.participants, 0 ≤ p.hp ∧ p.hp ≤ p.maxHp

/-- What one pipeline step preserves: participant count, the current
index, the lifecycle state, and HP boundedness. -/
def execPreserves (a b : Encounter) : Prop :=
  b.participants.length = a.participants.length ∧
  b.currentTurnIndex = a.currentTurnIndex ∧
  b.status = a.status ∧
  (hpWithinBounds a → hpWithinBounds b)

/-- Fallback encounter used when projecting out of an `Except`. -/
def emptyEncounter : Encounter :=
  { eid := "", participants := [], currentTurnIndex := 0, round := 1,
    status := .ended, terrain := { width := 0, height := 0 }, conditions := [] }

/-- Project the encounter out of a registry or scheduler result. -/
def getOk (x : Except CombatError Encounter) : Encounter :=
  match x with
  | .ok e => e
  | .error _ => emptyEncounter

/-- Whether a scheduler or registry call succeeded. -/
def isOkEnc (x : Except CombatError Encounter) : Bool :=
  match x with
  | .ok _ => true
  | .error _ => false

/-- Whether a pipeline call succeeded. -/
def isOkExec (x : Except CombatError (Encounter × ActionResponse)) : Bool :=
  match x with
  | .ok _ => true
  | .error _ => false

/-- The encounter a pipeline call produced (the input when it failed). -/
def execResult (e : Encounter) (req : ActionRequest) : Encounter :=
  match execOnEncounter e req with
  | .ok (e2, _) => e2
  | .error _ => e

/-- The response a pipeline call produced (an empty placeholder when it
failed). -/
def execResp (e : Encounter) (req : ActionRequest) : ActionResponse :=
  match execOnEncounter e req with
  | .ok (_, r) => r
  | .error _ => { outcome := .otherAction "" }

/-- One Turn Scheduler step, projected (the input when it failed). -/
def stepTurn (e : Encounter) : Encounter := getOk (advanceTurn e)

/-! ## Concrete scenario states -/

/-- The 44-HP ally at (5,5) of the spec's scenario and of the tests'
`createTestEncounter`. -/
def thorin : Participant :=
  { pid := "fighter-1", pname := "Thorin", hp := 44, maxHp := 44, ac := 18,
    initiativeBonus := 2, initiative := 0, position := { x := 5, y := 5 },
    isEnemy := false, speed := 30 }

/-- The 7-HP enemy at (6,5) of the spec's scenario. -/
def goblinScout : Participant :=
  { pid := "goblin-1", pname := "Goblin Scout", hp := 7, maxHp := 7, ac := 13,
    initiativeBonus := 2, initiative := 0, position := { x := 6, y := 5 },
    isEnemy := true, speed := 30 }

/-- The scenario encounter: a 44-HP ally at (5,5) and a 7-HP enemy at
(6,5) on a 20 by 20 terrain. -/
def demoEncounter : Encounter :=
  getOk (createEncounter "enc-1" [thorin, goblinScout] (fun _ => 10)
    { width := 20, height := 20 })

/-- The scenario attack: a melee attack by the ally on the enemy with a
forced attack roll of 18 and forced damage totalling 9 (6 on the dice
plus a flat 3). -/
def demoAttackReq : ActionRequest :=
  { encounterId := "enc-1", actorId := "fighter-1", action := .attack,
    targetId := some "goblin-1", attackRoll := 18,
    damageDiceTotal := 6, damageBonus := 3 }

/-- A target with armor class 99 for the natural-20 example. -/
def tank99 : Participant :=
  { pid := "tank-1", pname := "Iron Tower", hp := 50, maxHp := 50, ac := 99,
    initiativeBonus := 0, initiative := 5, position := { x := 6, y := 5 },
    isEnemy := true, speed := 30 }

/-- Encounter for the natural-20 versus AC 99 example. -/
def ac99Encounter : Encounter :=
  { eid := "enc-ac99", participants := [{ thorin with initiative := 12 }, tank99],
    currentTurnIndex := 0, round := 1, status := .active,
    terrain := { width := 20, height := 20 }, conditions := [] }

/-- A natural-20 melee attack against the AC-99 target. -/
def ac99Req : ActionRequest :=
  { encounterId := "enc-ac99", actorId := "fighter-1", action := .attack,
    targetId := some "tank-1", attackRoll := 20,
    damageDiceTotal := 6, damageBonus := 3 }

/-- A wizard at (0,0) for the spell-dispatch scenario. -/
def gandalf : Participant :=
  { pid := "wizard-1", pname := "Gandalf", hp := 32, maxHp := 32, ac := 12,
    initiativeBonus := 2, initiative := 14, position := { x := 0, y := 0 },
    isEnemy := false, speed := 30 }

/-- Encounter for the spell-dispatch scenario: wizard at (0,0), goblin at
(5,0). -/
def wizardEncounter : Encounter :=
  { eid := "enc-wiz",
    participants := [gandalf, { goblinScout with position := { x := 5, y := 0 } }],
    currentTurnIndex := 0, round := 1, status := .active,
    terrain := { width := 30, height := 30 }, conditions := [] }

/-- A `cast_spell` request for Fire Bolt against the goblin. -/
def castReq : ActionRequest :=
  { encounterId := "enc-wiz", actorId := "wizard-1", action := .cast_spell,
    targetId := some "goblin-1", spellName := some "Fire Bolt",
    attackRoll := 20, damageDiceTotal := 5 }

/-- A dash request moving the ally from (5,5), adjacent to the enemy at
(6,5), to (0,5), outside the enemy's reach, without a prior disengage. -/
def dashAwayReq : ActionRequest :=
  { encounterId := "enc-1", actorId := "fighter-1", action := .dash,
    moveTo := some { x := 0, y := 5 } }

/-- The lone participant of the condition round-trip scenario. -/
def hero : Participant :=
  { pid := "hero", pname := "Hero", hp := 10, maxHp := 10, ac := 10,
    initiativeBonus := 0, initiative := 10, position := { x := 0, y := 0 },
    isEnemy := false, speed := 30 }

/-- Starting encounter of the condition round-trip scenario: every
`advanceTurn` call completes the lone hero's turn. -/
def c8Start : Encounter :=
  { eid := "enc-c8", participants := [hero], currentTurnIndex := 0, round := 1,
    status := .active, terrain := { width := 10, height := 10 }, conditions := [] }

/-- The round-trip scenario state after `addCondition(hero, poisoned,
duration 3)`. -/
def c8Poisoned : Encounter :=
  addCondition c8Start "hero" .poisoned (some 3) "poison dart"

/-- Concrete location graph for the delete scenario: two rooms joined by
one passage. -/
def c10Store : LocationState :=
  { locationStore := [{ locId := "locA", locName := "Cellar" },
                      { locId := "locB", locName := "Hall" }],
    edgeStore := [{ edgeId := "edge1", fromLocationId := "locA", toLocationId := "locB" }] }

/-- Delete request for the first room, by id. -/
def c10DeleteInput : DeleteInput := { locationId := some "locA", locName := none }

/-- The store after deleting the first room: its edge went with it. -/
def c10After : LocationState :=
  { locationStore := [{ locId := "locB", locName := "Hall" }], edgeStore := [] }

/-! ## Helper lemmas -/

theorem length_insertByInitiative (p : Participant) (l : List Participant) :
    (insertByInitiative p l).length = l.length + 1 := by
  induction l with
  | nil => rfl
  | cons q rest ih =>
    by_cases h : q.initiative < p.initiative
    · simp [insertByInitiative, h]
    · simp [insertByInitiative, h, ih]

theorem mem_insertByInitiative (p : Participant) (l : List Participant) :
    p ∈ insertByInitiative p l := by
  induction l with
  | nil => simp [insertByInitiative]
  | cons q rest ih =>
    by_cases h : q.initiative < p.initiative
    · simp [insertByInitiative, h]
    · simpa [insertByInitiative, h] using Or.inr ih

theorem mem_of_mem_insertByInitiative {b p : Participant} {l : List Participant}
    (hb : b ∈ insertByInitiative p l) : b = p ∨ b ∈ l := by
  induction l with
  | nil => simpa [insertByInitiative] using hb
  | cons q rest ih =>
    by_cases h : q.initiative < p.initiative
    · simpa [insertByInitiative, h] using hb
    · simp only [insertByInitiative, if_neg h, List.mem_cons] at hb
      rcases hb with hb | hb
      · exact Or.inr (by simp [hb])
      · rcases ih hb with hb2 | hb2
        · exact Or.inl hb2
        · exact Or.inr (List.mem_cons_of_mem q hb2)

theorem sorted_insertByInitiative (p : Participant) (l : List Participant)
    (hs : SortedByInitiative l) : SortedByInitiative (insertByInitiative p l) := by
  induction l with
  | nil => simp [insertByInitiative, SortedByInitiative]
  | cons q rest ih =>
    rw [SortedByInitiative, List.sorted_cons] at hs
    obtain ⟨hq, hrest⟩ := hs
    by_cases h : q.initiative < p.initiative
    · rw [SortedByInitiative]
      simp only [insertByInitiative, if_pos h, List.sorted_cons, List.mem_cons]
      refine ⟨?_, ?_, hrest⟩
      · rintro b (rfl | hb)
        · exact le_of_lt h
        · exact le_trans (hq b hb) (le_of_lt h)
      · exact hq
    · rw [SortedByInitiative]
      simp only [insertByInitiative, if_neg h, List.sorted_cons]
      constructor
      · intro b hb
        rcases mem_of_mem_insertByInitiative hb with rfl | hb2
        · exact le_of_not_lt h
        · exact hq b hb2
      · exact ih hrest

theorem length_sortByInitiative (l : List Participant) :
    (sortByInitiative l).length = l.length := by
  induction l with
  | nil => rfl
  | cons q rest ih =>
    simp only [sortByInitiative, List.foldr_cons] at *
    rw [length_insertByInitiative, ih, List.length_cons]

theorem applyDamage_hp_bounds (p : Participant) (dmg : Int)
    (h0 : 0 ≤ p.hp) (h1 : p.hp ≤ p.maxHp) :
    0 ≤ (applyDamage p dmg).hp ∧ (applyDamage p dmg).hp ≤ (applyDamage p dmg).maxHp := by
  simp only [applyDamage]
  have hd : 0 ≤ max 0 dmg := le_max_left 0 dmg
  constructor
  · exact le_max_left 0 _
  · rcases le_total 0 (p.hp - max 0 dmg) with h | h
    · rw [max_eq_right h]; omega
    · rw [max_eq_left h]; omega

theorem applyHealing_hp_bounds (p : Participant) (amt : Int)
    (h0 : 0 ≤ p.hp) (h1 : p.hp ≤ p.maxHp) :
    0 ≤ (applyHealing p amt).hp ∧ (applyHealing p amt).hp ≤ p.maxHp := by
  simp only [applyHealing]
  have ha : 0 ≤ max 0 amt := le_max_left 0 amt
  constructor
  · rcases le_total p.maxHp (p.hp + max 0 amt) with h | h
    · rw [min_eq_left h]; omega
    · rw [min_eq_right h]; omega
  · exact min_le_left _ _

theorem execPreserves_refl (e : Encounter) : execPreserves e e :=
  ⟨rfl, rfl, rfl, id⟩

theorem execPreserves_trans {a b c : Encounter}
    (h1 : execPreserves a b) (h2 : execPreserves b c) : execPreserves a c := by
  obtain ⟨l1, i1, s1, p1⟩ := h1
  obtain ⟨l2, i2, s2, p2⟩ := h2
  exact ⟨l2.trans l1, i2.trans i1, s2.trans s1, fun hh => p2 (p1 hh)⟩

theorem execPreserves_updateParticipant (e : Encounter) (pid : String)
    (f : Participant → Participant)
    (hf : ∀ p, (f p).hp = p.hp ∧ (f p).maxHp = p.maxHp) :
    execPreserves e (updateParticipant e pid f) := by
  refine ⟨by simp [updateParticipant], rfl, rfl, ?_⟩
  intro h p hp
  simp only [updateParticipant, List.mem_map] at hp
  obtain ⟨q, hq, rfl⟩ := hp
  have hbase := h q hq
  by_cases hc : (q.pid == pid) = true
  · simp only [hc, if_true, (hf q).1, (hf q).2]
    exact hbase
  · simp only [hc, if_false]
    exact hbase

theorem execPreserves_moveParticipant (e : Encounter) (pid : String) (dest : Pos) :
    execPreserves e (moveParticipant e pid dest) :=
  execPreserves_updateParticipant e pid _ (fun _ => ⟨rfl, rfl⟩)

theorem execPreserves_damageTarget (e : Encounter) (tid : String) (dmg : Int) :
    execPreserves e (damageTarget e tid dmg) := by
  refine ⟨by simp [damageTarget], rfl, rfl, ?_⟩
  intro h p hp
  simp only [damageTarget, List.mem_map] at hp
  obtain ⟨q, hq, rfl⟩ := hp
  have hbase := h q hq
  by_cases hc : (q.pid == tid) = true
  · simp only [hc, if_true]
    exact applyDamage_hp_bounds q dmg hbase.1 hbase.2
  · simp only [hc, if_false]
    exact hbase

theorem execAttack_preserves {e : Encounter} {req : ActionRequest} {actor : Participant}
    {e2 : Encounter} {resp : ActionResponse}
    (h : execAttack e req actor = .ok (e2, resp)) : execPreserves e e2 := by
  unfold execAttack at h
  split at h
  · simp at h
  · rename_i tid htid
    split at h
    · simp at h
    · rename_i target htgt
      split at h
      · simp at h
      · rename_i mv hmv
        simp only [Except.ok.injEq, Prod.mk.injEq] at h
        obtain ⟨he2, -⟩ := h
        subst he2
        cases mv with
        | none =>
          by_cases hhit :
              (resolveAttackRoll req.attackRoll req.attackBonus target.ac).isHit = true
          · simp only [hhit, if_true]
            exact execPreserves_damageTarget e tid _
          · simp only [hhit, if_false]
            exact execPreserves_refl e
        | some dest =>
          by_cases hhit :
              (resolveAttackRoll req.attackRoll req.attackBonus target.ac).isHit = true
          · simp only [hhit, if_true]
            exact execPreserves_trans (execPreserves_moveParticipant e actor.pid dest)
              (execPreserves_damageTarget _ tid _)
          · simp only [hhit, if_false]
            exact execPreserves_moveParticipant e actor.pid dest

theorem execDash_preserves {e : Encounter} {req : ActionRequest} {actor : Participant}
    {e2 : Encounter} {resp : ActionResponse}
    (h : execDash e req actor = .ok (e2, resp)) : execPreserves e e2 := by
  unfold execDash at h
  split at h
  · simp at h
  · rename_i mv hmv
    simp only [Except.ok.injEq, Prod.mk.injEq] at h
    obtain ⟨he2, -⟩ := h
    subst he2
    cases mv with
    | none =>
      exact execPreserves_updateParticipant e actor.pid
        (fun p => { p with dashing := true }) (fun _ => ⟨rfl, rfl⟩)
    | some dest =>
      exact execPreserves_trans
        (execPreserves_updateParticipant e actor.pid
          (fun p => { p with dashing := true }) (fun _ => ⟨rfl, rfl⟩))
        (execPreserves_moveParticipant _ actor.pid dest)

theorem execCast_preserves {e : Encounter} {req : ActionRequest}
    {e2 : Encounter} {resp : ActionResponse}
    (h : execCast e req = .ok (e2, resp)) : execPreserves e e2 := by
  unfold execCast at h
  split at h
  · simp at h
  · rename_i sname hsname
    split at h
    · simp only [Except.ok.injEq, Prod.mk.injEq] at h
      obtain ⟨he2, -⟩ := h
      subst he2
      exact execPreserves_refl e
    · rename_i tid htid
      split at h
      · simp at h
      · rename_i target htgt
        simp only [Except.ok.injEq, Prod.mk.injEq] at h
        obtain ⟨he2, -⟩ := h
        subst he2
        by_cases hhit :
            (resolveAttackRoll req.attackRoll req.attackBonus target.ac).isHit = true
        · simp only [hhit, if_true]
          exact execPreserves_damageTarget e tid _
        · simp only [hhit, if_false]
          exact execPreserves_refl e

theorem execOnEncounter_preserves {e : Encounter} {req : ActionRequest}
    {e2 : Encounter} {resp : ActionResponse}
    (h : execOnEncounter e req = .ok (e2, resp)) : execPreserves e e2 := by
  unfold execOnEncounter at h
  split at h
  · simp at h
  · split at h
    · simp at h
    · rename_i actor hact
      split at h
      · exact execAttack_preserves h
      · exact execDash_preserves h
      · simp only [Except.ok.injEq, Prod.mk.injEq] at h
        obtain ⟨he2, -⟩ := h
        subst he2
        exact execPreserves_updateParticipant e actor.pid
          (fun p => { p with disengaged := true }) (fun _ => ⟨rfl, rfl⟩)
      · simp only [Except.ok.injEq, Prod.mk.injEq] at h
        obtain ⟨he2, -⟩ := h
        subst he2
        exact execPreserves_updateParticipant e actor.pid
          (fun p => { p with dodging := true }) (fun _ => ⟨rfl, rfl⟩)
      · exact execCast_preserves h
      · exact execCast_preserves h
      · simp only [Except.ok.injEq, Prod.mk.injEq] at h
        obtain ⟨he2, -⟩ := h
        subst he2
        exact execPreserves_refl e

theorem createEncounter_ok {eid : String} {ps : List Participant}
    {roll : Participant → Nat} {t : Terrain} {e : Encounter}
    (h : createEncounter eid ps roll t = .ok e) :
    e.participants.length = ps.length ∧ e.currentTurnIndex = 0 ∧
    e.status = .active ∧ ps ≠ [] := by
  unfold createEncounter at h
  split at h
  · simp at h
  · rename_i hne
    split at h
    · simp at h
    · split at h
      · simp at h
      · simp only [Except.ok.injEq] at h
        subst h
        refine ⟨?_, rfl, rfl, hne⟩
        rw [length_sortByInitiative, List.length_map]

theorem addParticipantToEncounter_ok {e : Encounter} {p : Participant}
    {mi : Option Int} {d : Nat} {e2 : Encounter}
    (h : addParticipantToEncounter e p mi d = .ok e2) :
    e2.participants = insertByInitiative
      { p with initiative := chosenInitiative p mi d } e.participants ∧
    e2.currentTurnIndex = e.currentTurnIndex ∧ e2.status = e.status := by
  unfold addParticipantToEncounter at h
  split at h
  · simp at h
  · split at h
    · simp at h
    · simp only [Except.ok.injEq] at h
      subst h
      exact ⟨rfl, rfl, rfl⟩

theorem advanceTurn_ok {e e2 : Encounter} (h : advanceTurn e = .ok e2) :
    e.status = .active ∧
    e2.participants.length = e.participants.length ∧
    e2.status = .active ∧
    e2.currentTurnIndex = (e.currentTurnIndex + 1) % e.participants.length ∧
    0 < e.participants.length := by
  unfold advanceTurn at h
  split at h
  · simp at h
  · rename_i hstat
    split at h
    · simp at h
    · rename_i cur hcur
      simp only [Except.ok.injEq] at h
      subst h
      obtain ⟨hlt, -⟩ := List.get?_eq_some.mp hcur
      exact ⟨hstat, by simp, hstat, rfl, Nat.lt_of_le_of_lt (Nat.zero_le _) hlt⟩

/-! ## Claim theorems -/

/-- C1: for every encounter whose lifecycle state is active, the single
current participant index (the `currentTurnIndex` field — there is
exactly one) is a valid index into the participant list, and each of the
mutating operations `createEncounter`, `addParticipantToEncounter`,
`execOnEncounter` (executeAction's per-encounter pipeline) and
`advanceTurn` establishes or preserves this. -/
theorem C1_current_turn_invariant :
    (∀ eid ps roll t e, createEncounter eid ps roll t = Except.ok e →
        currentIndexValid e) ∧
    (∀ e p mi d e2, addParticipantToEncounter e p mi d = Except.ok e2 →
        currentIndexValid e → currentIndexValid e2) ∧
    (∀ e req e2 resp, execOnEncounter e req = Except.ok (e2, resp) →
        currentIndexValid e → currentIndexValid e2) ∧
    (∀ e e2, advanceTurn e = Except.ok e2 →
        currentIndexValid e → currentIndexValid e2) := by
  refine ⟨?_, ?_, ?_, ?_⟩
  · intro eid ps roll t e h
    obtain ⟨hlen, hidx, hstat, hne⟩ := createEncounter_ok h
    intro _
    rw [hidx, hlen]
    exact List.length_pos.mpr hne
  · intro e p mi d e2 h hv
    obtain ⟨hps, hidx, hstat⟩ := addParticipantToEncounter_ok h
    intro hact
    have hlt := hv (by rw [← hstat]; exact hact)
    rw [hidx, hps, length_insertByInitiative]
    omega
  · intro e req e2 resp h hv
    obtain ⟨hlen, hidx, hstat, -⟩ := execOnEncounter_preserves h
    intro hact
    rw [hidx, hlen]
    exact hv (by rw [← hstat]; exact hact)
  · intro e e2 h hv
    obtain ⟨-, hlen, -, hidx, hpos⟩ := advanceTurn_ok h
    intro _
    rw [hidx, hlen]
    exact Nat.mod_lt _ hpos

/-- Witness for C1 at the concrete scenario encounter created by
`createEncounter`. -/
theorem C1_current_turn_invariant_witness : currentIndexValid demoEncounter :=
  C1_current_turn_invariant.1 "enc-1" [thorin, goblinScout] (fun _ => 10)
    { width := 20, height := 20 } demoEncounter (by rfl)

/-- C2: after any executed action every participant's HP lies in
[0, max-HP] (damage is clamped at 0, healing is truncated at the cap),
and in the concrete scenario — 44-HP ally at (5,5), 7-HP enemy at (6,5),
melee attack with forced attack roll 18 and forced damage 9 — the enemy
ends at exactly 0 HP with the unconscious condition applied. -/
theorem C2_hp_clamped :
    (∀ e req e2 resp, execOnEncounter e req = Except.ok (e2, resp) →
        hpWithinBounds e → hpWithinBounds e2) ∧
    (∀ p amt, 0 ≤ p.hp → p.hp ≤ p.maxHp →
        0 ≤ (applyHealing p amt).hp ∧ (applyHealing p amt).hp ≤ p.maxHp) ∧
    ((findParticipant (execResult demoEncounter demoAttackReq) "goblin-1").map
        Participant.hp = some 0 ∧
      hasCondition (execResult demoEncounter demoAttackReq).conditions "goblin-1"
        ConditionKind.unconscious = true ∧
      execResp demoEncounter demoAttackReq
        = { outcome := ActionOutcome.attacked "goblin-1" AttackResult.hit 9,
            movedTo := none, opportunityAttacks := [] }) := by
  refine ⟨?_, ?_, ?_⟩
  · intro e req e2 resp h hb
    exact (execOnEncounter_preserves h).2.2.2 hb
  · intro p amt h0 h1
    exact applyHealing_hp_bounds p amt h0 h1
  · exact ⟨by decide, by decide, by decide⟩

/-- Witness for C2 at the concrete scenario attack. -/
theorem C2_hp_clamped_witness :
    hpWithinBounds (execResult demoEncounter demoAttackReq) :=
  C2_hp_clamped.1 demoEncounter demoAttackReq
    (execResult demoEncounter demoAttackReq) (execResp demoEncounter demoAttackReq)
    (by rfl) (by unfold hpWithinBounds; decide)

/-- C3: a natural-20 attack roll resolves to a critical hit (and lands)
regardless of the target's AC, with the damage dice doubled relative to a
normal hit; a natural-1 resolves to a critical miss (and does not land)
regardless of the attacker's bonus; concretely, a natural 20 against an
AC-99 target still lands as a critical hit through the pipeline. -/
theorem C3_nat20_nat1 :
    (∀ bonus ac : Int, resolveAttackRoll 20 bonus ac = AttackResult.critical_hit ∧
        (resolveAttackRoll 20 bonus ac).isHit = true) ∧
    (∀ bonus ac : Int, resolveAttackRoll 1 bonus ac = AttackResult.critical_miss ∧
        (resolveAttackRoll 1 bonus ac).isHit = false) ∧
    (∀ (dice : Nat) (bonus : Int),
        attackDamage dice bonus AttackResult.critical_hit
          = attackDamage dice bonus AttackResult.hit + dice) ∧
    (∃ e2, execOnEncounter ac99Encounter ac99Req =
        Except.ok (e2, { outcome := ActionOutcome.attacked "tank-1"
                           AttackResult.critical_hit 15,
                         movedTo := none, opportunityAttacks := [] })) := by
  refine ⟨?_, ?_, ?_, ⟨_, rfl⟩⟩
  · intro bonus ac
    constructor <;> simp [resolveAttackRoll, AttackResult.isHit]
  · intro bonus ac
    constructor <;> simp [resolveAttackRoll, AttackResult.isHit]
  · intro dice bonus
    simp only [attackDamage]
    ring

theorem damageTarget_pidPos (e : Encounter) (tid : String) (dmg : Int) :
    (damageTarget e tid dmg).participants.map (fun p => (p.pid, p.position))
      = e.participants.map (fun p => (p.pid, p.position)) := by
  simp only [damageTarget, List.map_map]
  apply List.map_congr_left
  intro p _
  by_cases hc : (p.pid == tid) = true
  · simp [Function.comp, hc, applyDamage]
  · simp [Function.comp, hc]

theorem execCast_shape {e : Encounter} {req : ActionRequest}
    {e2 : Encounter} {resp : ActionResponse}
    (h : execCast e req = .ok (e2, resp)) :
    (∃ s t, resp.outcome = ActionOutcome.spellCast s t) ∧
    resp.movedTo = none ∧
    e2.participants.map (fun p => (p.pid, p.position))
      = e.participants.map (fun p => (p.pid, p.position)) := by
  unfold execCast at h
  split at h
  · simp at h
  · rename_i sname hsname
    split at h
    · simp only [Except.ok.injEq, Prod.mk.injEq] at h
      obtain ⟨he2, hresp⟩ := h
      subst he2
      subst hresp
      exact ⟨⟨sname, none, rfl⟩, rfl, rfl⟩
    · rename_i tid htid
      split at h
      · simp at h
      · rename_i target htgt
        simp only [Except.ok.injEq, Prod.mk.injEq] at h
        obtain ⟨he2, hresp⟩ := h
        subst he2
        subst hresp
        refine ⟨⟨sname, some tid, rfl⟩, rfl, ?_⟩
        by_cases hhit :
            (resolveAttackRoll req.attackRoll req.attackBonus target.ac).isHit = true
        · simp only [hhit, if_true]
          exact damageTarget_pidPos e tid _
        · rw [if_neg hhit]

/-- C4: a request whose action kind is `cast_spell` (or its alias `cast`)
is resolved by the spellcasting branch — its outcome is a spell cast,
never a dash, no movement is performed — and every participant (in
particular the caster) keeps its grid position. -/
theorem C4_cast_not_dash :
    ∀ e req e2 resp,
      (req.action = ActionType.cast_spell ∨ req.action = ActionType.cast) →
      execOnEncounter e req = Except.ok (e2, resp) →
      (∃ s t, resp.outcome = ActionOutcome.spellCast s t) ∧
      resp.outcome ≠ ActionOutcome.dashed ∧
      resp.movedTo = none ∧
      e2.participants.map (fun p => (p.pid, p.position))
        = e.participants.map (fun p => (p.pid, p.position)) := by
  intro e req e2 resp hor h
  unfold execOnEncounter at h
  split at h
  · simp at h
  · split at h
    · simp at h
    · rename_i actor hact
      have hcast : execCast e req = .ok (e2, resp) := by
        rcases hor with h1 | h1 <;> rw [h1] at h <;> exact h
      obtain ⟨hs, hmv, hpos⟩ := execCast_shape hcast
      refine ⟨hs, ?_, hmv, hpos⟩
      obtain ⟨s, t, hst⟩ := hs
      rw [hst]
      simp

/-- Witness for C4 at the concrete Fire Bolt cast: every participant of
the wizard encounter keeps its position. -/
theorem C4_cast_not_dash_witness :
    (execResult wizardEncounter castReq).participants.map (fun p => (p.pid, p.position))
      = wizardEncounter.participants.map (fun p => (p.pid, p.position)) :=
  (C4_cast_not_dash wizardEncounter castReq (execResult wizardEncounter castReq)
    (execResp wizardEncounter castReq) (Or.inl rfl) (by rfl)).2.2.2

theorem validateMove_error_message {e : Encounter} {actor : Participant} {b : Bool}
    {mv : Option Pos} {err : CombatError}
    (h : validateMove e actor b mv = .error err) : err.message ≠ "" := by
  cases mv with
  | none => simp [validateMove] at h
  | some dest =>
    simp only [validateMove] at h
    split at h
    · simp only [Except.error.injEq] at h
      subst h
      decide
    · split at h
      · simp only [Except.error.injEq] at h
        subst h
        decide
      · simp at h

theorem execAttack_error_message {e : Encounter} {req : ActionRequest}
    {actor : Participant} {err : CombatError}
    (h : execAttack e req actor = .error err) : err.message ≠ "" := by
  unfold execAttack at h
  split at h
  · simp only [Except.error.injEq] at h
    subst h
    decide
  · split at h
    · simp only [Except.error.injEq] at h
      subst h
      decide
    · split at h
      · rename_i err2 hval
        simp only [Except.error.injEq] at h
        subst h
        exact validateMove_error_message hval
      · simp at h

theorem execDash_error_message {e : Encounter} {req : ActionRequest}
    {actor : Participant} {err : CombatError}
    (h : execDash e req actor = .error err) : err.message ≠ "" := by
  unfold execDash at h
  split at h
  · rename_i err2 hval
    simp only [Except.error.injEq] at h
    subst h
    exact validateMove_error_message hval
  · simp at h

theorem execCast_error_message {e : Encounter} {req : ActionRequest} {err : CombatError}
    (h : execCast e req = .error err) : err.message ≠ "" := by
  unfold execCast at h
  split at h
  · simp only [Except.error.injEq] at h
    subst h
    decide
  · split at h
    · simp at h
    · split at h
      · simp only [Except.error.injEq] at h
        subst h
        decide
      · simp at h

theorem execOnEncounter_error_message {e : Encounter} {req : ActionRequest}
    {err : CombatError}
    (h : execOnEncounter e req = .error err) : err.message ≠ "" := by
  unfold execOnEncounter at h
  split at h
  · simp only [Except.error.injEq] at h
    subst h
    decide
  · split at h
    · simp only [Except.error.injEq] at h
      subst h
      decide
    · split at h
      · exact execAttack_error_message h
      · exact execDash_error_message h
      · simp at h
      · simp at h
      · exact execCast_error_message h
      · exact execCast_error_message h
      · simp at h

/-- C5: a request that fails performs no mutation — the registry after a
failed `executeAction` equals the registry before it — and the failure is
reported to the caller as an error kind with a non-empty descriptive
message. -/
theorem C5_failed_action_is_atomic :
    ∀ reg req err, (executeAction reg req).2 = ToolResult.failure err →
      (executeAction reg req).1 = reg ∧ err.message ≠ "" := by
  intro reg req err h
  unfold executeAction at h ⊢
  revert h
  cases hfind : findEncounter reg req.encounterId with
  | none =>
    intro h
    have h2 : ToolResult.failure (CombatError.notFound "Encounter not found")
        = ToolResult.failure err := h
    simp only [ToolResult.failure.injEq] at h2
    subst h2
    exact ⟨rfl, by decide⟩
  | some e =>
    show (applyExec reg (execOnEncounter e req)).2 = ToolResult.failure err →
      (applyExec reg (execOnEncounter e req)).1 = reg ∧ err.message ≠ ""
    cases hex : execOnEncounter e req with
    | error err2 =>
      intro h
      have h2 : ToolResult.failure err2 = ToolResult.failure err := h
      simp only [ToolResult.failure.injEq] at h2
      subst h2
      exact ⟨rfl, execOnEncounter_error_message hex⟩
    | ok pr =>
      intro h
      obtain ⟨e2, resp⟩ := pr
      have h2 : ToolResult.success resp = ToolResult.failure err := h
      simp at h2

/-- Witness for C5: executing an action against an empty registry fails
and leaves the registry unchanged. -/
theorem C5_failed_action_is_atomic_witness :
    (executeAction [] demoAttackReq).1 = [] ∧
      (CombatError.notFound "Encounter not found").message ≠ "" :=
  C5_failed_action_is_atomic [] demoAttackReq
    (CombatError.notFound "Encounter not found") (by rfl)

theorem validateMove_ok_some {e : Encounter} {actor : Participant} {b : Bool}
    {dest : Pos} {mv : Option Pos}
    (h : validateMove e actor b (some dest) = .ok mv) : mv = some dest := by
  simp only [validateMove] at h
  split at h
  · simp at h
  · split at h
    · simp at h
    · simp only [Except.ok.injEq] at h
      exact h.symm

theorem execDash_oas {e : Encounter} {req : ActionRequest} {actor : Participant}
    {dest : Pos} {e2 : Encounter} {resp : ActionResponse}
    (hmv : req.moveTo = some dest)
    (h : execDash e req actor = .ok (e2, resp)) :
    resp.opportunityAttacks = opportunityAttackers e actor dest := by
  unfold execDash at h
  split at h
  · simp at h
  · rename_i mv hval
    rw [hmv] at hval
    have := validateMove_ok_some hval
    subst this
    simp only [Except.ok.injEq, Prod.mk.injEq] at h
    obtain ⟨-, hresp⟩ := h
    subst hresp
    rfl

theorem execAttack_oas {e : Encounter} {req : ActionRequest} {actor : Participant}
    {dest : Pos} {e2 : Encounter} {resp : ActionResponse}
    (hmv : req.moveTo = some dest)
    (h : execAttack e req actor = .ok (e2, resp)) :
    resp.opportunityAttacks = opportunityAttackers e actor dest := by
  unfold execAttack at h
  split at h
  · simp at h
  · rename_i tid htid
    split at h
    · simp at h
    · rename_i target htgt
      split at h
      · simp at h
      · rename_i mv hval
        rw [hmv] at hval
        have := validateMove_ok_some hval
        subst this
        simp only [Except.ok.injEq, Prod.mk.injEq] at h
        obtain ⟨-, hresp⟩ := h
        subst hresp
        rfl

/-- C6: a movement that takes a participant from a square adjacent to a
living hostile to a square outside that hostile's reach provokes that
hostile's reaction attack in the same response unless the mover has
disengaged this turn, in which case no opportunity attack is produced;
and the pipeline's movement branches (dash and attack-with-movement)
report exactly these attackers in the response. -/
theorem C6_opportunity_attacks :
    (∀ e actor dest hostile, hostile ∈ e.participants →
        hostile.pid ≠ actor.pid → hostile.isEnemy ≠ actor.isEnemy → 0 < hostile.hp →
        adjacent actor.position hostile.position = true →
        adjacent dest hostile.position = false →
        actor.disengaged = false →
        hostile.pid ∈ opportunityAttackers e actor dest) ∧
    (∀ e actor dest, actor.disengaged = true →
        opportunityAttackers e actor dest = []) ∧
    (∀ e req actor dest e2 resp,
        (req.action = ActionType.dash ∨ req.action = ActionType.attack) →
        req.moveTo = some dest →
        findParticipant e req.actorId = some actor →
        execOnEncounter e req = Except.ok (e2, resp) →
        resp.opportunityAttacks = opportunityAttackers e actor dest) := by
  refine ⟨?_, ?_, ?_⟩
  · intro e actor dest hostile hmem hpid hfac hhp hadj1 hadj2 hdis
    unfold opportunityAttackers
    rw [if_neg (by simp [hdis])]
    apply List.mem_map.mpr
    refine ⟨hostile, List.mem_filter.mpr ⟨hmem, ?_⟩, rfl⟩
    simp only [Bool.and_eq_true, Bool.not_eq_true', beq_eq_false_iff_ne, ne_eq,
      bne_iff_ne, decide_eq_true_eq]
    exact ⟨⟨⟨⟨hpid, hfac⟩, hhp⟩, hadj1⟩, by simp [hadj2]⟩
  · intro e actor dest hdis
    unfold opportunityAttackers
    rw [if_pos hdis]
  · intro e req actor dest e2 resp hor hmv hfp h
    unfold execOnEncounter at h
    split at h
    · simp at h
    · split at h
      · simp at h
      · rename_i actor2 hfp2
        rw [hfp] at hfp2
        simp only [Option.some.injEq] at hfp2
        subst hfp2
        rcases hor with h1 | h1 <;> rw [h1] at h
        · exact execDash_oas hmv h
        · exact execAttack_oas hmv h

/-- Witness for C6 at the concrete scenario: the ally dashing from (5,5)
to (0,5) out of the adjacent enemy's reach provokes that enemy. -/
theorem C6_opportunity_attacks_witness :
    ("goblin-1" : String) ∈ opportunityAttackers demoEncounter
      (rollInitiative thorin 10) { x := 0, y := 5 } :=
  C6_opportunity_attacks.1 demoEncounter (rollInitiative thorin 10)
    { x := 0, y := 5 } (rollInitiative goblinScout 10)
    (by decide) (by decide) (by decide) (by decide) (by decide) (by decide) (by decide)

/-- C7: `addParticipant` fails with `NotFoundError` on an unknown
encounter id, `ConflictError` on a duplicate participant id,
`ValidationError` on a starting position outside terrain bounds; on
success the participant, carrying its manual or rolled initiative, is
inserted at its sorted position in the initiative-descending order. -/
theorem C7_addParticipant_errors_and_insertion :
    (∀ reg eid p mi d, findEncounter reg eid = none →
        addParticipant reg eid p mi d
          = Except.error (CombatError.notFound "Encounter not found")) ∧
    (∀ e p mi d, (e.participants.any fun q => q.pid == p.pid) = true →
        addParticipantToEncounter e p mi d
          = Except.error
              (CombatError.conflict "Participant ID already exists in the encounter")) ∧
    (∀ e p mi d, (e.participants.any fun q => q.pid == p.pid) = false →
        inBounds e.terrain p.position = false →
        addParticipantToEncounter e p mi d
          = Except.error
              (CombatError.validation "Starting position is out of terrain bounds")) ∧
    (∀ e p mi d e2, addParticipantToEncounter e p mi d = Except.ok e2 →
        SortedByInitiative e.participants →
        SortedByInitiative e2.participants ∧
        e2.participants.length = e.participants.length + 1 ∧
        ∃ q ∈ e2.participants, q.pid = p.pid ∧ q.initiative = chosenInitiative p mi d) := by
  refine ⟨?_, ?_, ?_, ?_⟩
  · intro reg eid p mi d h
    simp [addParticipant, h]
  · intro e p mi d h
    simp [addParticipantToEncounter, h]
  · intro e p mi d h1 h2
    simp [addParticipantToEncounter, h1, h2]
  · intro e p mi d e2 h hs
    obtain ⟨hps, -, -⟩ := addParticipantToEncounter_ok h
    rw [hps]
    refine ⟨sorted_insertByInitiative _ _ hs, length_insertByInitiative _ _, ?_⟩
    exact ⟨_, mem_insertByInitiative _ _, rfl, rfl⟩

/-- Witness for C7: adding to an empty registry reports the
`NotFoundError`. -/
theorem C7_addParticipant_errors_and_insertion_witness :
    addParticipant [] "nope" thorin none 10
      = Except.error (CombatError.notFound "Encounter not found") :=
  C7_addParticipant_errors_and_insertion.1 [] "nope" thorin none 10 (by rfl)

/-- C8: the Condition Store / Turn Scheduler round-trip — adding
`poisoned` with duration 3 to the lone participant and then running
three `advanceTurn` calls, each of which completes that participant's
turn, removes the condition (one decrement per completed turn, removal
at zero); a fourth `advanceTurn` succeeds and finds the condition
already absent. -/
theorem C8_condition_duration_roundtrip :
    hasCondition c8Poisoned.conditions "hero" ConditionKind.poisoned = true ∧
    isOkEnc (advanceTurn c8Poisoned) = true ∧
    hasCondition (stepTurn c8Poisoned).conditions "hero" ConditionKind.poisoned = true ∧
    isOkEnc (advanceTurn (stepTurn c8Poisoned)) = true ∧
    hasCondition (stepTurn (stepTurn c8Poisoned)).conditions "hero"
      ConditionKind.poisoned = true ∧
    isOkEnc (advanceTurn (stepTurn (stepTurn c8Poisoned))) = true ∧
    hasCondition (stepTurn (stepTurn (stepTurn c8Poisoned))).conditions "hero"
      ConditionKind.poisoned = false ∧
    isOkEnc (advanceTurn (stepTurn (stepTurn (stepTurn c8Poisoned)))) = true ∧
    hasCondition (stepTurn (stepTurn (stepTurn (stepTurn c8Poisoned)))).conditions "hero"
      ConditionKind.poisoned = false := by
  decide

theorem deleteState_props (st : LocationState) (loc0 : Location) :
    (∀ ed ∈ ({ locationStore := st.locationStore.filter (fun l => !(l.locId == loc0.locId)),
               edgeStore := removeEdgesForLocation st.edgeStore loc0.locId
             : LocationState }).edgeStore,
        ed.fromLocationId ≠ loc0.locId ∧ ed.toLocationId ≠ loc0.locId) ∧
    ¬ locIdPresent
        { locationStore := st.locationStore.filter (fun l => !(l.locId == loc0.locId)),
          edgeStore := removeEdgesForLocation st.edgeStore loc0.locId } loc0.locId ∧
    (edgesClosed st → edgesClosed
        { locationStore := st.locationStore.filter (fun l => !(l.locId == loc0.locId)),
          edgeStore := removeEdgesForLocation st.edgeStore loc0.locId }) := by
  refine ⟨?_, ?_, ?_⟩
  · intro ed hed
    simp only [removeEdgesForLocation, List.mem_filter] at hed
    obtain ⟨-, hpred⟩ := hed
    simp only [Bool.not_eq_true', Bool.or_eq_false_iff, beq_eq_false_iff_ne] at hpred
    exact hpred
  · rintro ⟨l, hl, hlid⟩
    simp only [List.mem_filter] at hl
    obtain ⟨-, hpred⟩ := hl
    simp only [Bool.not_eq_true', beq_eq_false_iff_ne] at hpred
    exact hpred hlid
  · intro hclosed ed hed
    simp only [removeEdgesForLocation, List.mem_filter] at hed
    obtain ⟨hmem, hpred⟩ := hed
    simp only [Bool.not_eq_true', Bool.or_eq_false_iff, beq_eq_false_iff_ne] at hpred
    obtain ⟨⟨lf, hlf, hlfid⟩, ⟨lt, hlt, hltid⟩⟩ := hclosed ed hmem
    constructor
    · refine ⟨lf, List.mem_filter.mpr ⟨hlf, ?_⟩, hlfid⟩
      simp only [Bool.not_eq_true', beq_eq_false_iff_ne]
      rw [hlfid]
      exact hpred.1
    · refine ⟨lt, List.mem_filter.mpr ⟨hlt, ?_⟩, hltid⟩
      simp only [Bool.not_eq_true', beq_eq_false_iff_ne]
      rw [hltid]
      exact hpred.2

/-- C10: a successful `manage_location` delete first removes every edge
incident to the location (at either endpoint) and then the location
itself: afterwards no edge references the deleted location, the location
is gone from the store, and when every edge endpoint existed before the
delete, every edge endpoint still exists after it. -/
theorem C10_delete_removes_incident_edges :
    ∀ st input st2 loc, handleDelete st input = DeleteResult.deleted st2 loc →
      (∀ ed ∈ st2.edgeStore, ed.fromLocationId ≠ loc.locId ∧ ed.toLocationId ≠ loc.locId) ∧
      ¬ locIdPresent st2 loc.locId ∧
      (edgesClosed st → edgesClosed st2) := by
  intro st input st2 loc h
  unfold handleDelete at h
  split at h
  · simp at h
  · split at h
    all_goals dsimp only [] at h
    all_goals split at h
    · simp at h
    · rename_i loc0 hfind
      simp only [DeleteResult.deleted.injEq] at h
      obtain ⟨hst2, hloc⟩ := h
      subst hloc
      subst hst2
      exact deleteState_props st loc0
    · simp at h
    · rename_i loc0 hfind
      simp only [DeleteResult.deleted.injEq] at h
      obtain ⟨hst2, hloc⟩ := h
      subst hloc
      subst hst2
      exact deleteState_props st loc0

/-- Witness for C10: deleting the first room of the concrete two-room
graph leaves a store whose edges all reference existing locations. -/
theorem C10_delete_removes_incident_edges_witness : edgesClosed c10After := by
  have h := C10_delete_removes_incident_edges c10Store c10DeleteInput c10After
    { locId := "locA", locName := "Cellar" } (by rfl)
  exact h.2.2 (by unfold edgesClosed locIdPresent; decide)

end ChatRPG
